import Mathlib

/-! Verification of `internal/prometheus/prometheus.go`.

A shallow embedding of the header-injecting transport `customTransport.RoundTrip`
and of the condition evaluator `GetPrometheusCondition`, together with the Go
library operations they call (`strings.SplitN`, `strings.HasPrefix`,
`strings.ReplaceAll`, `http.Header.Set`, `fmt.Errorf` with `%w`).

Go strings are byte strings.  They are embedded as lists of byte codes.
`os.Environ()` is a parameter of `RoundTrip`; the Prometheus client library is a
parameter of `GetPrometheusCondition`.  A run-time panic is an `Except.error`.
`http.Header.Set` stores a value under the canonical MIME form of the name
(`textproto.CanonicalMIMEHeaderKey`), which the embedding follows.
-/

set_option autoImplicit false

namespace Prometheus

/-! ## Go strings -/

/-- A Go string: an immutable sequence of bytes, each byte given by its code. -/
abbrev GoString := List Nat

/-- The bytes of an ASCII literal (for ASCII text the code points are the bytes). -/
def bytes (s : String) : GoString := s.toList.map Char.toNat

/-- Go `strings.HasPrefix(s, pre)`:
`len(s) >= len(pre) && s[:len(pre)] == pre`. -/
def HasPrefix (s pre : GoString) : Bool :=
  decide (pre.length ≤ s.length) && s.take pre.length == pre

/-- Go `strings.Index(s, substr)`: the index of the first instance of `substr`
in `s`, or `none` (Go: `-1`) if `substr` is not present. -/
def Index : GoString → GoString → Option Nat
  | [], substr => if substr = [] then some 0 else none
  | c :: s, substr =>
    if HasPrefix (c :: s) substr then some 0 else (Index s substr).map (· + 1)

/-- Go `strings.SplitN(s, sep, n)` for a non-empty separator and `n ≥ 0`
(`genSplit` with `sepSave = 0`): at most `n` substrings, the last one being the
unsplit remainder.  The loop of `genSplit` cuts at the first separator while
fewer than `n - 1` pieces have been produced. -/
def SplitN (s sep : GoString) (hsep : sep ≠ []) : Nat → List GoString
  | 0 => []
  | 1 => [s]
  | n + 2 =>
    match Index s sep with
    | none => [s]
    | some m => s.take m :: SplitN (s.drop (m + sep.length)) sep hsep (n + 1)

/-- The replacement loop of Go `strings.Replace(s, old, new, -1)` for a non-empty
`old`: copy up to the next instance of `old`, write `new`, continue after the
instance.  Every round consumes at least one byte, `fuel` bounds the rounds. -/
def replaceLoop (old new : GoString) : Nat → GoString → GoString
  | 0, s => s
  | fuel + 1, s =>
    match Index s old with
    | none => s
    | some j => s.take j ++ new ++ replaceLoop old new fuel (s.drop (j + old.length))

/-- Go `strings.ReplaceAll(s, old, new)` for a non-empty `old`: all
non-overlapping instances of `old` replaced by `new`.  There are at most
`len(s)` instances, which is the fuel of the loop. -/
def ReplaceAll (s old new : GoString) (_hold : old ≠ []) : GoString :=
  if old = new then s else replaceLoop old new s.length s

/-! ## HTTP headers and requests -/

/-- The token bytes of net/textproto (`validHeaderFieldByte`): ASCII letters,
digits and the punctuation bytes ``!#$%&'*+-.^_`|~``. -/
def validHeaderFieldByte (c : Nat) : Bool :=
  (decide (48 ≤ c) && decide (c ≤ 57)) || (decide (65 ≤ c) && decide (c ≤ 90)) ||
  (decide (97 ≤ c) && decide (c ≤ 122)) ||
  [33, 35, 36, 37, 38, 39, 42, 43, 45, 46, 94, 95, 96, 124, 126].contains c

/-- The rewriting loop of net/textproto `canonicalMIMEHeaderKey`: a letter is put
in upper case when `upper` is set and in lower case otherwise; `upper` is set at
the start and after each `-`. -/
def canonicalLoop : Bool → GoString → GoString
  | _, [] => []
  | upper, c :: rest =>
    let c' :=
      if upper && decide (97 ≤ c) && decide (c ≤ 122) then c - 32
      else if !upper && decide (65 ≤ c) && decide (c ≤ 90) then c + 32
      else c
    c' :: canonicalLoop (c' == 45) rest

/-- Go `textproto.CanonicalMIMEHeaderKey(s)`: the first letter and any letter
following a hyphen in upper case, the other letters in lower case; a key that
contains a space or an invalid header field byte is returned unchanged. -/
def CanonicalMIMEHeaderKey (s : GoString) : GoString :=
  if s.all validHeaderFieldByte then canonicalLoop true s else s

/-- Go `http.Header`, a `map[string][]string`, as its lookup function: `none` for
an absent key.  The map is allocated (requests built by `http.NewRequest`). -/
def Header := GoString → Option (List GoString)

/-- Go `http.Header.Set(key, value)`: `h[CanonicalMIMEHeaderKey(key)] = []string{value}`. -/
def Header.Set (h : Header) (key value : GoString) : Header :=
  fun k => if k = CanonicalMIMEHeaderKey key then some [value] else h k

/-- Go `http.Header.Get(key)`: the first value stored under the canonical form of
`key`, or the empty string. -/
def Header.Get (h : Header) (key : GoString) : GoString :=
  match h (CanonicalMIMEHeaderKey key) with
  | some (v :: _) => v
  | _ => []

/-- The empty header map. -/
def Header.empty : Header := fun _ => none

/-- An `http.Request`: its header map, and the fields the transport does not
touch (method, URL, body, context). -/
structure Request (ρ : Type) where
  Header : Header
  rest : ρ

/-- A run-time panic of the Go program. -/
inductive Panic where
  | indexOutOfRange (index length : Nat)
  | nilDereference
  | interfaceConversion
  deriving DecidableEq

/-- Go slice indexing `xs[i]`: a run-time panic when `i` is out of range. -/
def index {α : Type} (xs : List α) (i : Nat) : Except Panic α :=
  match xs[i]? with
  | some x => .ok x
  | none => .error (.indexOutOfRange i xs.length)

/-! ## `customTransport.RoundTrip` -/

/-- The recognised prefix of header variables. -/
def PROMETHEUS_HEADER_ : GoString := bytes "PROMETHEUS_HEADER_"

/-- The type `customTransport`: it holds the wrapped `http.RoundTripper`, whose
`RoundTrip` maps a request to its outcome (response and error) of type `τ`. -/
structure customTransport (ρ τ : Type) where
  Transport : Request ρ → τ

/-- The loop of `customTransport.RoundTrip` (lines 25-36) over the entries of
`os.Environ()`, threading the request whose header map the loop mutates. -/
def customTransport.setHeaders {ρ : Type} (req : Request ρ) :
    List GoString → Except Panic (Request ρ)
  | [] => .ok req
  | env :: environ => do
    let pair := SplitN env (bytes "=") (by decide) 2
    let key ← index pair 0
    let value ← index pair 1
    let req :=
      if HasPrefix key PROMETHEUS_HEADER_ then
        let headerName := ReplaceAll (key.drop PROMETHEUS_HEADER_.length) (bytes "_") (bytes "-")
          (by decide)
        { req with Header := req.Header.Set headerName value }
      else req
    customTransport.setHeaders req environ

/-- `customTransport.RoundTrip`: run the loop over `environ` (the result of
`os.Environ()`), then hand the request to the wrapped transport and return its
outcome verbatim. -/
def customTransport.RoundTrip {ρ τ : Type} (t : customTransport ρ τ)
    (environ : List GoString) (req : Request ρ) : Except Panic τ := do
  let req ← customTransport.setHeaders req environ
  pure (t.Transport req)

/-! ## `GetPrometheusCondition` -/

/-- A Go `error` value with its message and, for errors built with `%w`, the
error it wraps. -/
inductive GoError where
  | errorString (msg : GoString)
  | wrapError (msg : GoString) (err : GoError)
  deriving DecidableEq

/-- The method `Error()`. -/
def GoError.Error : GoError → GoString
  | .errorString msg => msg
  | .wrapError msg _ => msg

/-- Go `errors.Unwrap`. -/
def GoError.Unwrap : GoError → Option GoError
  | .errorString _ => none
  | .wrapError _ err => some err

/-- Go `fmt.Errorf(text + "%w", err)`: the message is `text` followed by
`err.Error()`, and the result unwraps to `err`. -/
def Errorf_w (text : GoString) (err : GoError) : GoError :=
  .wrapError (text ++ err.Error) err

/-- Go `fmt.Errorf(text + "%v", v)` for a value printed as `shown`. -/
def Errorf_v (text shown : GoString) : GoError :=
  .errorString (text ++ shown)

/-- The type `model.ValueType`. -/
inductive ValueType where
  | ValNone | ValScalar | ValVector | ValMatrix | ValString
  deriving DecidableEq

/-- The method `ValueType.String()`. -/
def ValueType.String : ValueType → GoString
  | .ValNone => bytes "<ValNone>"
  | .ValScalar => bytes "scalar"
  | .ValVector => bytes "vector"
  | .ValMatrix => bytes "matrix"
  | .ValString => bytes "string"

/-- The values of the interface `model.Value`: the implementations of the
package, `*Scalar`, `Vector` (a slice of samples), `Matrix` (a slice of sample
streams) and `*String`, and `untyped`, a value of any other implementation,
whose `Type()` is the remaining value type `ValNone`.  `σ` is the type of a
sample. -/
inductive Value (σ : Type) where
  | scalar (s : σ)
  | vector (v : List σ)
  | matrix (m : List (List σ))
  | string (s : GoString)
  | untyped

/-- The method `Type()` of a `model.Value`. -/
def Value.Type {σ : Type} : Value σ → ValueType
  | .scalar _ => .ValScalar
  | .vector _ => .ValVector
  | .matrix _ => .ValMatrix
  | .string _ => .ValString
  | .untyped => .ValNone

/-- What `v1api.Query` returns: `result` (a `model.Value`, possibly the nil
interface), `warnings` and `err`. -/
structure QueryResponse (σ : Type) where
  result : Option (Value σ)
  warnings : List GoString
  err : Option GoError

/-- The client returned by `api.NewClient`. -/
structure Client where
  Address : GoString
  deriving DecidableEq

/-- The Prometheus client library as seen by `GetPrometheusCondition`:
`api.NewClient` for a server address, and `v1api.Query` on a client for a query
string (sent through the HTTP client whose transport is `customTransport`). -/
structure Library (σ : Type) where
  NewClient : GoString → Except GoError Client
  Query : Client → GoString → QueryResponse σ

/-- The calls `GetPrometheusCondition` makes, in order. -/
inductive Event where
  | NewClient (address : GoString)
  | Query (client : Client) (query : GoString)
  | LogPrintln (warnings : List GoString)
  deriving DecidableEq

/-- The events that are an execution of the query. -/
def Event.isQuery : Event → Bool
  | .Query _ _ => true
  | _ => false

/-- A run of `GetPrometheusCondition`: the calls made and the values returned
(or the panic). -/
structure Run where
  events : List Event
  returned : Except Panic (Bool × Option GoError)

/-- `GetPrometheusCondition(prometheusURL, prometheusCondition)`. -/
def GetPrometheusCondition {σ : Type} (lib : Library σ)
    (prometheusURL prometheusCondition : GoString) : Run :=
  match lib.NewClient prometheusURL with
  | .error err =>
    ⟨[.NewClient prometheusURL],
      .ok (false, some (Errorf_w (bytes "failed to create Prometheus client: ") err))⟩
  | .ok client =>
    let r := lib.Query client prometheusCondition
    let called := [Event.NewClient prometheusURL, Event.Query client prometheusCondition]
    match r.err with
    | some err =>
      ⟨called, .ok (false, some (Errorf_w (bytes "failed to query Prometheus: ") err))⟩
    | none =>
      let logged := if r.warnings.length > 0 then [Event.LogPrintln r.warnings] else []
      match r.result with
      | none => ⟨called ++ logged, .error .nilDereference⟩
      | some result =>
        if result.Type = .ValVector then
          match result with
          | .vector vector =>
            if vector.length > 0 then ⟨called ++ logged, .ok (true, none)⟩
            else ⟨called ++ logged, .ok (false, none)⟩
          | _ => ⟨called ++ logged, .error .interfaceConversion⟩
        else
          ⟨called ++ logged,
            .ok (false, some (Errorf_v (bytes "unexpected result type from Prometheus: ")
              result.Type.String))⟩

/-! ## The specification's vocabulary -/

/-- The key of an environment entry: the text before the first `=`. -/
def entryKey (e : GoString) : GoString := e.takeWhile (· ≠ 61)

/-- The value of an environment entry: the whole text after the first `=`. -/
def entryValue (e : GoString) : GoString := (e.dropWhile (· ≠ 61)).drop 1

/-- An entry whose key starts with `PROMETHEUS_HEADER_`. -/
def isHeaderEntry (e : GoString) : Bool := HasPrefix (entryKey e) PROMETHEUS_HEADER_

/-- The derived name of an entry: the suffix of its key after the prefix, with
every `_` replaced by `-`. -/
def derivedName (e : GoString) : GoString :=
  ((entryKey e).drop PROMETHEUS_HEADER_.length).map (fun c => if c = 95 then 45 else c)

/-- The name under which the header map stores the derived name of an entry. -/
def storedName (e : GoString) : GoString := CanonicalMIMEHeaderKey (derivedName e)

/-- The request that `RoundTrip` hands to the wrapped transport: the argument
seen by a wrapped transport that returns its argument. -/
def outgoing {ρ : Type} (environ : List GoString) (req : Request ρ) :
    Except Panic (Request ρ) :=
  customTransport.RoundTrip ⟨fun r => r⟩ environ req

/-- What one environment entry does to a header map, in the specification's
words: an entry whose key has the prefix sets the header of its derived name to
its value, any other entry leaves the map alone. -/
def applyEntry (h : Header) (e : GoString) : Header :=
  if isHeaderEntry e then h.Set (derivedName e) (entryValue e) else h

/-- The header map after all entries of a listing, in enumeration order. -/
def applyEntries (h : Header) (environ : List GoString) : Header :=
  environ.foldl applyEntry h

/-! ## Concrete inputs -/

/-- The listing of the specification's example. -/
def exampleEnviron : List GoString := [bytes "PROMETHEUS_HEADER_X_API_KEY=secret123"]

/-- A listing with two variables whose names differ in letter case only. -/
def caseEnviron : List GoString :=
  [bytes "PROMETHEUS_HEADER_X_API_KEY=secret123", bytes "PROMETHEUS_HEADER_x_api_key=other"]

/-- A listing with two variables whose derived names are `X-A` and `x-a`. -/
def lastEnviron : List GoString :=
  [bytes "PROMETHEUS_HEADER_X_A=1", bytes "PROMETHEUS_HEADER_x_a=2"]

/-- A listing whose only entry has no `=`. -/
def bareEnviron : List GoString := [bytes "FOO"]

/-- The listing of the example between two variables without the prefix. -/
def paddedEnviron : List GoString :=
  [bytes "HOME=/root", bytes "PROMETHEUS_HEADER_X_API_KEY=secret123", bytes "PATH=/bin"]

/-- A request with the single header `X-A: 0`. -/
def xaRequest : Request Unit := ⟨Header.empty.Set (bytes "X-A") (bytes "0"), ()⟩

/-- A library whose client construction succeeds and whose query returns the
given response. -/
def answering (r : QueryResponse Nat) : Library Nat :=
  ⟨fun address => .ok ⟨address⟩, fun _ _ => r⟩

/-- A library whose client construction fails with the given error. -/
def refusing (err : GoError) : Library Nat :=
  ⟨fun _ => .error err, fun _ _ => ⟨some (.vector [1]), [], none⟩⟩

/-- A server address. -/
def someURL : GoString := bytes "http://prometheus:9090"

/-- A query. -/
def someQuery : GoString := bytes "up == 1"

/-- A request without headers. -/
def emptyRequest : Request Unit := ⟨Header.empty, ()⟩

/-- A request with the single header `X-Api-Key: old`. -/
def keyedRequest : Request Unit := ⟨Header.empty.Set (bytes "X-Api-Key") (bytes "old"), ()⟩

/-! ## Lemmas on the string operations -/

theorem hasPrefix_single (c b : Nat) (s : GoString) :
    HasPrefix (c :: s) [b] = decide (c = b) := by
  by_cases h : c = b <;> simp [HasPrefix, h]

theorem index_single (b : Nat) (s : GoString) :
    Index s [b] = if b ∈ s then some (s.takeWhile (· ≠ b)).length else none := by
  induction s with
  | nil => simp [Index]
  | cons c s ih =>
    rw [Index, hasPrefix_single]
    by_cases h : c = b
    · subst h; simp
    · have h' : ¬ b = c := fun e => h e.symm
      simp [h, h', ih, List.takeWhile_cons]

theorem take_takeWhile_length (p : Nat → Bool) (l : GoString) :
    l.take (l.takeWhile p).length = l.takeWhile p := by
  induction l with
  | nil => simp
  | cons c l ih => by_cases h : p c <;> simp [List.takeWhile_cons, h, ih]

theorem drop_takeWhile_length (p : Nat → Bool) (l : GoString) :
    l.drop (l.takeWhile p).length = l.dropWhile p := by
  induction l with
  | nil => simp
  | cons c l ih => by_cases h : p c <;> simp [List.takeWhile_cons, List.dropWhile_cons, h, ih]

/-- With a separator in the entry, `SplitN(env, "=", 2)` is the pair of the text
before the first `=` and the text after it. -/
theorem splitN_of_mem (e sep : GoString) (h : sep ≠ []) (hb : sep = [61]) (hm : 61 ∈ e) :
    SplitN e sep h 2 = [entryKey e, entryValue e] := by
  subst hb
  simp only [SplitN, index_single, hm, if_true, entryKey, entryValue]
  rw [take_takeWhile_length, List.length_singleton, ← List.drop_drop, drop_takeWhile_length]

/-- Without a separator, `SplitN(env, "=", 2)` has the entry as its only element. -/
theorem splitN_of_not_mem (e sep : GoString) (h : sep ≠ []) (hb : sep = [61]) (hm : 61 ∉ e) :
    SplitN e sep h 2 = [e] := by
  subst hb
  simp only [SplitN, index_single, hm, if_false]

theorem map_eq_self_of_not_mem (b c : Nat) (s : GoString) (h : b ∉ s) :
    s.map (fun x => if x = b then c else x) = s := by
  induction s with
  | nil => rfl
  | cons a s ih =>
    simp only [List.mem_cons, not_or] at h
    have ha : ¬ a = b := fun e => h.1 e.symm
    simp [ha, ih h.2]

theorem dropWhile_of_mem (b : Nat) (s : GoString) (hm : b ∈ s) :
    ∃ rest, s.dropWhile (· ≠ b) = b :: rest := by
  induction s with
  | nil => simp at hm
  | cons a s ih =>
    by_cases h : a = b
    · subst h; exact ⟨s, by simp [List.dropWhile_cons]⟩
    · have hm' : b ∈ s := by
        rcases List.mem_cons.mp hm with e | e
        · exact absurd e.symm h
        · exact e
      obtain ⟨rest, hr⟩ := ih hm'
      exact ⟨rest, by rw [List.dropWhile_cons]; simpa [h] using hr⟩

theorem not_mem_takeWhile (b : Nat) (s : GoString) : b ∉ s.takeWhile (· ≠ b) := by
  intro h
  have := List.mem_takeWhile_imp h
  simp at this

theorem replaceLoop_single (b c : Nat) (fuel : Nat) (s : GoString) (hf : s.length ≤ fuel) :
    replaceLoop [b] [c] fuel s = s.map (fun x => if x = b then c else x) := by
  induction fuel generalizing s with
  | zero =>
    have : s = [] := List.length_eq_zero.mp (Nat.le_zero.mp hf)
    subst this; rfl
  | succ fuel ih =>
    rw [replaceLoop, index_single]
    by_cases hm : b ∈ s
    · simp only [hm, if_true, List.length_singleton]
      obtain ⟨rest, hr⟩ := dropWhile_of_mem b s hm
      have hsplit : s = s.takeWhile (· ≠ b) ++ b :: rest := by
        rw [← hr]; exact (List.takeWhile_append_dropWhile _ s).symm
      have hlen : rest.length ≤ fuel := by
        have := congrArg List.length hsplit
        simp only [List.length_append, List.length_cons] at this
        omega
      rw [take_takeWhile_length, ← List.drop_drop, drop_takeWhile_length, hr]
      simp only [List.drop_succ_cons, List.drop_zero]
      rw [ih rest hlen]
      conv_rhs => rw [hsplit]
      rw [List.map_append, List.map_cons, map_eq_self_of_not_mem b c _ (not_mem_takeWhile b s),
        if_pos rfl]
      simp
    · simp only [hm, if_false]
      exact (map_eq_self_of_not_mem b c s hm).symm

/-- On the arguments of the program, `ReplaceAll(s, "_", "-")` replaces every
`_` of `s` by `-`. -/
theorem replaceAll_single (s old new : GoString) (h : old ≠ []) (ho : old = [95])
    (hn : new = [45]) :
    ReplaceAll s old new h = s.map (fun x => if x = 95 then 45 else x) := by
  subst ho hn
  simp only [ReplaceAll]
  rw [if_neg (by decide)]
  exact replaceLoop_single 95 45 s.length s (Nat.le_refl _)

/-! ## Lemmas on the loop of `RoundTrip` -/

/-- An entry with a `=` is split into key and value and treated as the
specification says. -/
theorem setHeaders_cons_of_mem {ρ : Type} (req : Request ρ) (e : GoString)
    (environ : List GoString) (hm : 61 ∈ e) :
    customTransport.setHeaders req (e :: environ) =
      customTransport.setHeaders { req with Header := applyEntry req.Header e } environ := by
  rw [customTransport.setHeaders, splitN_of_mem e _ _ (by decide) hm]
  simp only [index, List.getElem?_cons_zero, List.getElem?_cons_succ, bind, Except.bind]
  rw [replaceAll_single _ _ _ _ (by decide) (by decide)]
  unfold applyEntry isHeaderEntry derivedName
  split <;> rfl

/-- An entry without a `=` makes the indexing `pair[1]` panic. -/
theorem setHeaders_cons_of_not_mem {ρ : Type} (req : Request ρ) (e : GoString)
    (environ : List GoString) (hm : 61 ∉ e) :
    customTransport.setHeaders req (e :: environ) = .error (.indexOutOfRange 1 1) := by
  rw [customTransport.setHeaders, splitN_of_not_mem e _ _ (by decide) hm]
  rfl

/-- On a listing whose entries all contain `=`, the loop terminates normally and
computes the header map of the specification. -/
theorem setHeaders_eq {ρ : Type} (environ : List GoString) (req : Request ρ)
    (hwf : ∀ e ∈ environ, 61 ∈ e) :
    customTransport.setHeaders req environ =
      .ok { req with Header := applyEntries req.Header environ } := by
  induction environ generalizing req with
  | nil => rfl
  | cons e environ ih =>
    rw [setHeaders_cons_of_mem req e environ (hwf e (List.mem_cons_self _ _)),
      ih _ (fun e' he' => hwf e' (List.mem_cons_of_mem _ he'))]
    rfl

/-- On such a listing `RoundTrip` returns what the wrapped transport returns for
the request with the header map of the specification. -/
theorem roundTrip_eq {ρ τ : Type} (t : customTransport ρ τ) (environ : List GoString)
    (req : Request ρ) (hwf : ∀ e ∈ environ, 61 ∈ e) :
    t.RoundTrip environ req =
      .ok (t.Transport { req with Header := applyEntries req.Header environ }) := by
  rw [customTransport.RoundTrip, setHeaders_eq environ req hwf]
  rfl

/-- A listing with an entry without `=` makes `RoundTrip` panic, whatever the
other entries, the request and the wrapped transport are. -/
theorem roundTrip_panics_of_bare_entry {ρ τ : Type} (t : customTransport ρ τ)
    (environ : List GoString) (req : Request ρ) (hbare : ∃ e ∈ environ, 61 ∉ e) :
    t.RoundTrip environ req = .error (.indexOutOfRange 1 1) := by
  have hloop : ∀ (environ : List GoString) (req : Request ρ), (∃ e ∈ environ, 61 ∉ e) →
      customTransport.setHeaders req environ = .error (.indexOutOfRange 1 1) := by
    intro environ
    induction environ with
    | nil => intro _ h; obtain ⟨e, he, _⟩ := h; simp at he
    | cons a environ ih =>
      intro req h
      by_cases ha : 61 ∈ a
      · rw [setHeaders_cons_of_mem req a environ ha]
        apply ih
        obtain ⟨e, he, hne⟩ := h
        rcases List.mem_cons.mp he with rfl | he'
        · exact absurd ha hne
        · exact ⟨e, he', hne⟩
      · exact setHeaders_cons_of_not_mem req a environ ha
  rw [customTransport.RoundTrip, hloop environ req hbare]
  rfl

/-! ## Lemmas on the header map of a listing -/

theorem applyEntries_cons (h : Header) (e : GoString) (environ : List GoString) :
    applyEntries h (e :: environ) = applyEntries (applyEntry h e) environ := rfl

theorem applyEntry_self (h : Header) (e : GoString) (hp : isHeaderEntry e = true) :
    applyEntry h e (storedName e) = some [entryValue e] := by
  simp [applyEntry, hp, Header.Set, storedName]

theorem applyEntry_of_ne (h : Header) (e k : GoString)
    (hne : isHeaderEntry e = true → storedName e ≠ k) :
    applyEntry h e k = h k := by
  unfold applyEntry
  by_cases hp : isHeaderEntry e = true
  · have : ¬ k = CanonicalMIMEHeaderKey (derivedName e) := fun hk => hne hp hk.symm
    simp [hp, Header.Set, this]
  · simp [hp]

/-- A name that no header entry of the listing is stored under keeps what it had. -/
theorem applyEntries_of_ne (h : Header) (environ : List GoString) (k : GoString)
    (hne : ∀ e ∈ environ, isHeaderEntry e = true → storedName e ≠ k) :
    applyEntries h environ k = h k := by
  induction environ generalizing h with
  | nil => rfl
  | cons e environ ih =>
    rw [applyEntries_cons, ih _ (fun e' he' => hne e' (List.mem_cons_of_mem _ he')),
      applyEntry_of_ne h e k (hne e (List.mem_cons_self _ _))]

/-- Last write wins: the name an entry is stored under holds exactly the value
of that entry when no later header entry is stored under the same name. -/
theorem applyEntries_last (h : Header) (environ : List GoString) (i : Nat) (e : GoString)
    (hi : environ[i]? = some e) (hp : isHeaderEntry e = true)
    (hlast : ∀ j e', i < j → environ[j]? = some e' → isHeaderEntry e' = true →
      storedName e' ≠ storedName e) :
    applyEntries h environ (storedName e) = some [entryValue e] := by
  induction environ generalizing h i with
  | nil => simp at hi
  | cons a environ ih =>
    rw [applyEntries_cons]
    cases i with
    | zero =>
      simp only [List.getElem?_cons_zero, Option.some.injEq] at hi
      subst hi
      rw [applyEntries_of_ne, applyEntry_self h a hp]
      intro e' he' hp'
      obtain ⟨n, hn⟩ := List.mem_iff_getElem?.mp he'
      exact hlast (n + 1) e' (Nat.succ_pos n) (by simpa using hn) hp'
    | succ i =>
      refine ih _ i (by simpa using hi) ?_
      intro j e' hj hj' hp'
      exact hlast (j + 1) e' (Nat.succ_lt_succ hj) (by simpa using hj') hp'

/-- Entries whose key lacks the prefix do not contribute to the header map. -/
theorem applyEntries_filter (h : Header) (environ : List GoString) :
    applyEntries h environ = applyEntries h (environ.filter isHeaderEntry) := by
  induction environ generalizing h with
  | nil => rfl
  | cons e environ ih =>
    by_cases hp : isHeaderEntry e = true
    · rw [List.filter_cons_of_pos hp, applyEntries_cons, applyEntries_cons, ih]
    · rw [List.filter_cons_of_neg hp, applyEntries_cons, ih]
      simp [applyEntry, hp]

/-! ## The specification's vocabulary on a well-formed entry -/

theorem entryKey_append (k v : GoString) (hk : 61 ∉ k) : entryKey (k ++ 61 :: v) = k := by
  induction k with
  | nil => simp [entryKey]
  | cons a k ih =>
    simp only [List.mem_cons, not_or] at hk
    have ha : ¬ a = 61 := fun e => hk.1 e.symm
    have := ih hk.2
    simp only [entryKey] at this ⊢
    simpa [List.takeWhile_cons, ha] using this

theorem entryValue_append (k v : GoString) (hk : 61 ∉ k) : entryValue (k ++ 61 :: v) = v := by
  induction k with
  | nil => simp [entryValue]
  | cons a k ih =>
    simp only [List.mem_cons, not_or] at hk
    have ha : ¬ a = 61 := fun e => hk.1 e.symm
    have := ih hk.2
    simp only [entryValue] at this ⊢
    simpa [List.dropWhile_cons, ha] using this

/-! ## Claims on `customTransport.RoundTrip` -/

/-- C1, as stated, fails: in the listing `PROMETHEUS_HEADER_X_API_KEY=secret123`,
`PROMETHEUS_HEADER_x_api_key=other` every entry contains `=`, the first entry has
the prefix, its derived name `X-API-KEY` is produced by no other entry (the other
one derives `x-api-key`), and yet the request handed to the wrapped transport has
no header named exactly `X-API-KEY`; the only header set is `X-Api-Key`, with the
value `other`, which is also what `Header.Get("X-API-KEY")` answers. -/
theorem C1_counterexample :
    (∀ e ∈ caseEnviron, 61 ∈ e) ∧
    caseEnviron[0]? = some (bytes "PROMETHEUS_HEADER_X_API_KEY=secret123") ∧
    isHeaderEntry (bytes "PROMETHEUS_HEADER_X_API_KEY=secret123") = true ∧
    derivedName (bytes "PROMETHEUS_HEADER_X_API_KEY=secret123") = bytes "X-API-KEY" ∧
    entryValue (bytes "PROMETHEUS_HEADER_X_API_KEY=secret123") = bytes "secret123" ∧
    (∀ j e, j ≠ 0 → caseEnviron[j]? = some e → derivedName e ≠ bytes "X-API-KEY") ∧
    (outgoing caseEnviron emptyRequest).map (fun r =>
        (r.Header (bytes "X-API-KEY"), r.Header (bytes "X-Api-Key"),
          r.Header.Get (bytes "X-API-KEY"))) =
      .ok (none, some [bytes "other"], bytes "other") := by
  refine ⟨by decide, rfl, by decide, by decide, by decide, ?_, rfl⟩
  intro j e hj he
  match j, hj, he with
  | 1, _, he =>
    simp only [caseEnviron, List.getElem?_cons_succ, List.getElem?_cons_zero,
      Option.some.injEq] at he
    subst he
    decide
  | j + 2, _, he => simp [caseEnviron] at he

/-- C1, amended: for a listing whose entries all contain `=`, and an entry whose
key starts with `PROMETHEUS_HEADER_` and whose derived name in canonical MIME
form is not that of any other header entry, `RoundTrip` returns what the wrapped
transport returns for a request that carries, under the canonical form of the
derived name, exactly the text after the first `=` of the entry. -/
theorem C1_roundTrip_sets_canonical_header {ρ : Type} (environ : List GoString)
    (req : Request ρ) (i : Nat) (e : GoString)
    (hwf : ∀ e' ∈ environ, 61 ∈ e')
    (hi : environ[i]? = some e)
    (hp : isHeaderEntry e = true)
    (huniq : ∀ j e', j ≠ i → environ[j]? = some e' → isHeaderEntry e' = true →
      storedName e' ≠ storedName e) :
    ∃ req' : Request ρ,
      (∀ (τ : Type) (t : customTransport ρ τ),
        t.RoundTrip environ req = .ok (t.Transport req')) ∧
      req'.Header (CanonicalMIMEHeaderKey (derivedName e)) = some [entryValue e] ∧
      req'.Header.Get (derivedName e) = entryValue e := by
  refine ⟨{ req with Header := applyEntries req.Header environ },
    fun τ t => roundTrip_eq t environ req hwf, ?_⟩
  have h := applyEntries_last req.Header environ i e hi hp
    (fun j e' hj => huniq j e' (Nat.ne_of_gt hj))
  exact ⟨h, by simp only [Header.Get]; rw [← storedName, h]⟩

/-- C1, witness: the specification's example, `PROMETHEUS_HEADER_X_API_KEY=secret123`,
gives the outgoing header `X-Api-Key: secret123`. -/
theorem C1_witness :
    storedName (bytes "PROMETHEUS_HEADER_X_API_KEY=secret123") = bytes "X-Api-Key" ∧
    entryValue (bytes "PROMETHEUS_HEADER_X_API_KEY=secret123") = bytes "secret123" ∧
    ∃ req' : Request Unit,
      (∀ (τ : Type) (t : customTransport Unit τ),
        t.RoundTrip exampleEnviron emptyRequest = .ok (t.Transport req')) ∧
      req'.Header (CanonicalMIMEHeaderKey
        (derivedName (bytes "PROMETHEUS_HEADER_X_API_KEY=secret123"))) =
        some [entryValue (bytes "PROMETHEUS_HEADER_X_API_KEY=secret123")] ∧
      req'.Header.Get (derivedName (bytes "PROMETHEUS_HEADER_X_API_KEY=secret123")) =
        entryValue (bytes "PROMETHEUS_HEADER_X_API_KEY=secret123") :=
  ⟨by decide, by decide,
    C1_roundTrip_sets_canonical_header exampleEnviron emptyRequest 0
      (bytes "PROMETHEUS_HEADER_X_API_KEY=secret123") (by decide) rfl (by decide)
      (by
        intro j e' hj he'
        cases j with
        | zero => exact absurd rfl hj
        | succ j => simp [exampleEnviron] at he')⟩

/-- C8, as stated, fails in two ways.  For the listing `FOO`, which has no
variable with the prefix, the request is not delegated: the call panics.  For the
listing of the example and a request with the header `X-Api-Key: old`, no
variable derives the name `X-Api-Key` (the only derived name is `X-API-KEY`), and
yet that header of the request is changed to `secret123`. -/
theorem C8_counterexample :
    ((∀ e ∈ bareEnviron, isHeaderEntry e = false) ∧
      outgoing bareEnviron emptyRequest = .error (.indexOutOfRange 1 1)) ∧
    ((∀ e ∈ exampleEnviron, derivedName e ≠ bytes "X-Api-Key") ∧
      keyedRequest.Header (bytes "X-Api-Key") = some [bytes "old"] ∧
      (outgoing exampleEnviron keyedRequest).map (fun r => r.Header (bytes "X-Api-Key")) =
        .ok (some [bytes "secret123"])) :=
  ⟨⟨by decide, rfl⟩, by decide, rfl, rfl⟩

/-- C8, amended: for two listings whose entries all contain `=` and which differ
only in entries whose key lacks the prefix, `RoundTrip` hands the same request to
the wrapped transport; in it the fields other than the headers are those of the
given request, every header name that is not the canonical form of the derived
name of some variable with the prefix holds what it held, and with no variable
with the prefix the request is delegated unchanged. -/
theorem C8_roundTrip_frame {ρ : Type} (environ₁ environ₂ : List GoString) (req : Request ρ)
    (hwf₁ : ∀ e ∈ environ₁, 61 ∈ e) (hwf₂ : ∀ e ∈ environ₂, 61 ∈ e)
    (hsame : environ₁.filter isHeaderEntry = environ₂.filter isHeaderEntry) :
    ∃ req' : Request ρ,
      (∀ (τ : Type) (t : customTransport ρ τ),
        t.RoundTrip environ₁ req = .ok (t.Transport req') ∧
        t.RoundTrip environ₂ req = .ok (t.Transport req')) ∧
      req'.rest = req.rest ∧
      (∀ k : GoString, (∀ e ∈ environ₁, isHeaderEntry e = true → storedName e ≠ k) →
        req'.Header k = req.Header k) ∧
      (environ₁.filter isHeaderEntry = [] → req' = req) := by
  refine ⟨{ req with Header := applyEntries req.Header environ₁ }, fun τ t => ⟨?_, ?_⟩, rfl,
    fun k hk => applyEntries_of_ne req.Header environ₁ k hk, fun hnone => ?_⟩
  · exact roundTrip_eq t environ₁ req hwf₁
  · rw [roundTrip_eq t environ₂ req hwf₂, applyEntries_filter req.Header environ₂, ← hsame,
      ← applyEntries_filter]
  · rw [applyEntries_filter, hnone]
    rfl

/-- C8, witness: the listing of the example, alone and between `HOME=/root` and
`PATH=/bin`, for a request with the header `X-A: 0`. -/
theorem C8_witness :
    (∀ e ∈ exampleEnviron, 61 ∈ e) ∧ (∀ e ∈ paddedEnviron, 61 ∈ e) ∧
    exampleEnviron.filter isHeaderEntry = paddedEnviron.filter isHeaderEntry ∧
    ∃ req' : Request Unit,
      (∀ (τ : Type) (t : customTransport Unit τ),
        t.RoundTrip exampleEnviron xaRequest = .ok (t.Transport req') ∧
        t.RoundTrip paddedEnviron xaRequest = .ok (t.Transport req')) ∧
      req'.rest = xaRequest.rest ∧
      (∀ k : GoString, (∀ e ∈ exampleEnviron, isHeaderEntry e = true → storedName e ≠ k) →
        req'.Header k = xaRequest.Header k) ∧
      (exampleEnviron.filter isHeaderEntry = [] → req' = xaRequest) :=
  ⟨by decide, by decide, by decide,
    C8_roundTrip_frame exampleEnviron paddedEnviron xaRequest (by decide) (by decide)
      (by decide)⟩

/-- C9, as stated, fails: in the listing `PROMETHEUS_HEADER_X_A=1`,
`PROMETHEUS_HEADER_x_a=2` the derived names are `X-A` and `x-a`; the last entry
that derives `X-A` has the value `1`, but after `RoundTrip` the name `X-A` holds
`2`, and the derived name `x-a` holds no value. -/
theorem C9_counterexample :
    lastEnviron.map derivedName = [bytes "X-A", bytes "x-a"] ∧
    lastEnviron.map entryValue = [bytes "1", bytes "2"] ∧
    (outgoing lastEnviron emptyRequest).map (fun r =>
        (r.Header (bytes "X-A"), r.Header (bytes "x-a"))) =
      .ok (some [bytes "2"], none) :=
  ⟨by decide, by decide, rfl⟩

/-- C9, amended: for a listing whose entries all contain `=` and any request,
after `RoundTrip` the canonical form of the derived name of a header entry holds
exactly one value, the value of the last entry in enumeration order whose
derived name has that canonical form, whatever the request and the earlier
entries had put there. -/
theorem C9_roundTrip_last_write_wins {ρ : Type} (environ : List GoString)
    (req : Request ρ) (i : Nat) (e : GoString)
    (hwf : ∀ e' ∈ environ, 61 ∈ e')
    (hi : environ[i]? = some e)
    (hp : isHeaderEntry e = true)
    (hlast : ∀ j e', i < j → environ[j]? = some e' → isHeaderEntry e' = true →
      storedName e' ≠ storedName e) :
    ∃ req' : Request ρ,
      (∀ (τ : Type) (t : customTransport ρ τ),
        t.RoundTrip environ req = .ok (t.Transport req')) ∧
      req'.Header (storedName e) = some [entryValue e] :=
  ⟨{ req with Header := applyEntries req.Header environ },
    fun _ t => roundTrip_eq t environ req hwf,
    applyEntries_last req.Header environ i e hi hp hlast⟩

/-- C9, witness: in the listing `PROMETHEUS_HEADER_X_A=1`, `PROMETHEUS_HEADER_x_a=2`
and for a request with the header `X-A: 0`, the name `X-A` ends with the single
value `2`. -/
theorem C9_witness :
    storedName (bytes "PROMETHEUS_HEADER_x_a=2") = bytes "X-A" ∧
    entryValue (bytes "PROMETHEUS_HEADER_x_a=2") = bytes "2" ∧
    xaRequest.Header (bytes "X-A") = some [bytes "0"] ∧
    ∃ req' : Request Unit,
      (∀ (τ : Type) (t : customTransport Unit τ),
        t.RoundTrip lastEnviron xaRequest = .ok (t.Transport req')) ∧
      req'.Header (storedName (bytes "PROMETHEUS_HEADER_x_a=2")) =
        some [entryValue (bytes "PROMETHEUS_HEADER_x_a=2")] :=
  ⟨by decide, by decide, rfl,
    C9_roundTrip_last_write_wins lastEnviron xaRequest 1 (bytes "PROMETHEUS_HEADER_x_a=2")
      (by decide) rfl (by decide)
      (by
        intro j e' hj he'
        match j, hj, he' with
        | j + 2, _, he' => simp [lastEnviron] at he')⟩

/-- C10, the code at the failing input: for the listing whose only entry is
`FOO`, `RoundTrip` panics at `pair[1]` (index 1 of a slice of length 1) for every
request, and the wrapped transport is never reached. -/
theorem C10_roundTrip_panics {ρ τ : Type} (t : customTransport ρ τ) (req : Request ρ) :
    t.RoundTrip bareEnviron req = .error (.indexOutOfRange 1 1) := by
  rw [customTransport.RoundTrip, bareEnviron,
    setHeaders_cons_of_not_mem req (bytes "FOO") [] (by decide)]
  rfl

/-! ## Claims on `GetPrometheusCondition` -/

/-- C2: when the client is constructed and the query returns no error and a
vector, `GetPrometheusCondition` returns `(b, nil)` where `b` is true exactly
when the vector has at least one element. -/
theorem C2_vector_result {σ : Type} (lib : Library σ) (url cond : GoString) (client : Client)
    (v : List σ)
    (hc : lib.NewClient url = .ok client)
    (he : (lib.Query client cond).err = none)
    (hr : (lib.Query client cond).result = some (.vector v)) :
    (GetPrometheusCondition lib url cond).returned = .ok (decide (1 ≤ v.length), none) ∧
    (1 ≤ v.length → (GetPrometheusCondition lib url cond).returned = .ok (true, none)) ∧
    (v.length = 0 → (GetPrometheusCondition lib url cond).returned = .ok (false, none)) := by
  have key : (GetPrometheusCondition lib url cond).returned =
      .ok (decide (1 ≤ v.length), none) := by
    simp only [GetPrometheusCondition, hc, he, hr, Value.Type, if_true]
    by_cases hv : v.length > 0
    · have : 1 ≤ v.length := hv
      simp [hv, this]
    · have : ¬ 1 ≤ v.length := hv
      simp [hv, this]
  refine ⟨key, fun h => ?_, fun h => ?_⟩
  · rw [key]; simp [h]
  · rw [key]; simp [h]

/-- C2, witness: a vector of three elements gives `(true, nil)`. -/
theorem C2_witness :
    1 ≤ [1, 2, 3].length ∧
    (GetPrometheusCondition (answering ⟨some (.vector [1, 2, 3]), [], none⟩)
        someURL someQuery).returned = .ok (true, none) :=
  ⟨by decide,
    (C2_vector_result (answering ⟨some (.vector [1, 2, 3]), [], none⟩) someURL someQuery
      ⟨someURL⟩ [1, 2, 3] rfl rfl rfl).2.1 (by decide)⟩

/-- C3: when the client is constructed and the query returns no error and a
result whose type is not vector, `GetPrometheusCondition` returns false and a
non-nil error whose message is `unexpected result type from Prometheus: `
followed by the name of the type of the result: `scalar` for a scalar, `matrix`
for a matrix, `string` for a string and `<ValNone>` for a value of any other
type.  These are all the cases, and the name in the message belongs to no other
value type. -/
theorem C3_unexpected_type {σ : Type} (lib : Library σ) (url cond : GoString) (client : Client)
    (r : Value σ)
    (hc : lib.NewClient url = .ok client)
    (he : (lib.Query client cond).err = none)
    (hr : (lib.Query client cond).result = some r)
    (ht : r.Type ≠ .ValVector) :
    ∃ e : GoError, (GetPrometheusCondition lib url cond).returned = .ok (false, some e) ∧
      e.Error = bytes "unexpected result type from Prometheus: " ++ r.Type.String ∧
      (r.Type = .ValScalar →
        e.Error = bytes "unexpected result type from Prometheus: scalar") ∧
      (r.Type = .ValMatrix →
        e.Error = bytes "unexpected result type from Prometheus: matrix") ∧
      (r.Type = .ValString →
        e.Error = bytes "unexpected result type from Prometheus: string") ∧
      (r.Type = .ValNone →
        e.Error = bytes "unexpected result type from Prometheus: <ValNone>") ∧
      (r.Type = .ValScalar ∨ r.Type = .ValMatrix ∨ r.Type = .ValString ∨ r.Type = .ValNone) ∧
      (∀ t : ValueType, t.String = r.Type.String → t = r.Type) := by
  have hret : (GetPrometheusCondition lib url cond).returned = .ok (false,
      some (Errorf_v (bytes "unexpected result type from Prometheus: ") r.Type.String)) := by
    simp only [GetPrometheusCondition, hc, he, hr, ht, if_false]
  refine ⟨Errorf_v (bytes "unexpected result type from Prometheus: ") r.Type.String, hret, rfl,
    ?_, ?_, ?_, ?_, ?_, ?_⟩
  · intro h; simp only [Errorf_v, GoError.Error, h]; decide
  · intro h; simp only [Errorf_v, GoError.Error, h]; decide
  · intro h; simp only [Errorf_v, GoError.Error, h]; decide
  · intro h; simp only [Errorf_v, GoError.Error, h]; decide
  · cases r with
    | scalar x => exact Or.inl rfl
    | vector v => exact absurd rfl ht
    | matrix m => exact Or.inr (Or.inl rfl)
    | string x => exact Or.inr (Or.inr (Or.inl rfl))
    | untyped => exact Or.inr (Or.inr (Or.inr rfl))
  · intro t h
    generalize r.Type = u at h
    revert h
    cases t <;> cases u <;> decide

/-- C3, witness: a scalar, a matrix, a string and a value of another type each
give false and the error `unexpected result type from Prometheus: ` followed by
`scalar`, `matrix`, `string` and `<ValNone>`. -/
theorem C3_witness :
    (∃ e : GoError,
      (GetPrometheusCondition (answering ⟨some (.scalar 1), [], none⟩)
        someURL someQuery).returned = .ok (false, some e) ∧
      e.Error = bytes "unexpected result type from Prometheus: scalar") ∧
    (∃ e : GoError,
      (GetPrometheusCondition (answering ⟨some (.matrix [[1]]), [], none⟩)
        someURL someQuery).returned = .ok (false, some e) ∧
      e.Error = bytes "unexpected result type from Prometheus: matrix") ∧
    (∃ e : GoError,
      (GetPrometheusCondition (answering ⟨some (.string (bytes "up")), [], none⟩)
        someURL someQuery).returned = .ok (false, some e) ∧
      e.Error = bytes "unexpected result type from Prometheus: string") ∧
    (∃ e : GoError,
      (GetPrometheusCondition (answering ⟨some .untyped, [], none⟩)
        someURL someQuery).returned = .ok (false, some e) ∧
      e.Error = bytes "unexpected result type from Prometheus: <ValNone>") :=
  ⟨(C3_unexpected_type (answering ⟨some (.scalar 1), [], none⟩) someURL someQuery
      ⟨someURL⟩ (.scalar 1) rfl rfl rfl (by decide)).elim
      (fun e h => ⟨e, h.1, h.2.2.1 rfl⟩),
    (C3_unexpected_type (answering ⟨some (.matrix [[1]]), [], none⟩) someURL someQuery
      ⟨someURL⟩ (.matrix [[1]]) rfl rfl rfl (by decide)).elim
      (fun e h => ⟨e, h.1, h.2.2.2.1 rfl⟩),
    (C3_unexpected_type (answering ⟨some (.string (bytes "up")), [], none⟩) someURL someQuery
      ⟨someURL⟩ (.string (bytes "up")) rfl rfl rfl (by decide)).elim
      (fun e h => ⟨e, h.1, h.2.2.2.2.1 rfl⟩),
    (C3_unexpected_type (answering ⟨some .untyped, [], none⟩) someURL someQuery
      ⟨someURL⟩ .untyped rfl rfl rfl (by decide)).elim
      (fun e h => ⟨e, h.1, h.2.2.2.2.2.1 rfl⟩)⟩

/-- C4: whatever the library does, when `GetPrometheusCondition` returns a
non-nil error the boolean is false, and when it returns true the error is nil. -/
theorem C4_error_implies_false {σ : Type} (lib : Library σ) (url cond : GoString) (b : Bool)
    (oe : Option GoError)
    (h : (GetPrometheusCondition lib url cond).returned = .ok (b, oe)) :
    (oe ≠ none → b = false) ∧ (b = true → oe = none) := by
  have ok_false : ∀ e : GoError, (Except.ok (false, some e) : Except Panic (Bool × Option GoError))
      = .ok (b, oe) → (oe ≠ none → b = false) ∧ (b = true → oe = none) := by
    intro e h'
    simp only [Except.ok.injEq, Prod.mk.injEq] at h'
    obtain ⟨rfl, rfl⟩ := h'
    simp
  have ok_nil : ∀ c : Bool, (Except.ok (c, none) : Except Panic (Bool × Option GoError))
      = .ok (b, oe) → (oe ≠ none → b = false) ∧ (b = true → oe = none) := by
    intro c h'
    simp only [Except.ok.injEq, Prod.mk.injEq] at h'
    obtain ⟨rfl, rfl⟩ := h'
    simp
  simp only [GetPrometheusCondition] at h
  cases hN : lib.NewClient url with
  | error err => rw [hN] at h; exact ok_false _ h
  | ok client =>
    rw [hN] at h
    simp only at h
    cases hE : (lib.Query client cond).err with
    | some err => rw [hE] at h; exact ok_false _ h
    | none =>
      rw [hE] at h
      simp only at h
      cases hR : (lib.Query client cond).result with
      | none => rw [hR] at h; simp at h
      | some result =>
        rw [hR] at h
        simp only at h
        cases result with
        | scalar x => exact ok_false _ (by simpa [Value.Type] using h)
        | matrix x => exact ok_false _ (by simpa [Value.Type] using h)
        | string x => exact ok_false _ (by simpa [Value.Type] using h)
        | untyped => exact ok_false _ (by simpa [Value.Type] using h)
        | vector v =>
          simp only [Value.Type, if_true] at h
          by_cases hv : v.length > 0
          · rw [if_pos hv] at h; exact ok_nil _ h
          · rw [if_neg hv] at h; exact ok_nil _ h

/-- C4, witness: a matrix result gives false with a non-nil error. -/
theorem C4_witness :
    (GetPrometheusCondition (answering ⟨some (.matrix [[1]]), [], none⟩)
        someURL someQuery).returned =
      .ok (false, some (.errorString (bytes "unexpected result type from Prometheus: matrix"))) ∧
    ((some (GoError.errorString (bytes "unexpected result type from Prometheus: matrix")) ≠ none →
        false = false) ∧
      (false = true →
        some (GoError.errorString (bytes "unexpected result type from Prometheus: matrix")) =
          none)) :=
  ⟨rfl, C4_error_implies_false (answering ⟨some (.matrix [[1]]), [], none⟩) someURL
    someQuery false _ rfl⟩

/-- C5: when the construction of the client fails with `err`,
`GetPrometheusCondition` returns false and an error that wraps `err`, its message
being `failed to create Prometheus client: ` followed by that of `err`; the query
is not executed: the only call made is the construction, and the run is the same
whatever the query would have answered. -/
theorem C5_client_failure {σ : Type} (lib : Library σ) (url cond : GoString) (err : GoError)
    (hc : lib.NewClient url = .error err) :
    ∃ e : GoError, (GetPrometheusCondition lib url cond).returned = .ok (false, some e) ∧
      e.Unwrap = some err ∧
      e.Error = bytes "failed to create Prometheus client: " ++ err.Error ∧
      (GetPrometheusCondition lib url cond).events = [.NewClient url] ∧
      (GetPrometheusCondition lib url cond).events.filter Event.isQuery = [] ∧
      (∀ query' : Client → GoString → QueryResponse σ,
        GetPrometheusCondition ⟨lib.NewClient, query'⟩ url cond =
          GetPrometheusCondition lib url cond) := by
  refine ⟨Errorf_w (bytes "failed to create Prometheus client: ") err, ?_, rfl, rfl, ?_, ?_, ?_⟩
  · simp only [GetPrometheusCondition, hc]
  · simp only [GetPrometheusCondition, hc]
  · simp only [GetPrometheusCondition, hc]
    rfl
  · intro query'
    simp only [GetPrometheusCondition, hc]

/-- C5, witness: a library that refuses the address with the error `no address`. -/
theorem C5_witness :
    ∃ e : GoError,
      (GetPrometheusCondition (refusing (.errorString (bytes "no address")))
        someURL someQuery).returned = .ok (false, some e) ∧
      e.Unwrap = some (.errorString (bytes "no address")) ∧
      e.Error = bytes "failed to create Prometheus client: " ++
        (GoError.errorString (bytes "no address")).Error ∧
      (GetPrometheusCondition (refusing (.errorString (bytes "no address")))
        someURL someQuery).events = [.NewClient someURL] ∧
      (GetPrometheusCondition (refusing (.errorString (bytes "no address")))
        someURL someQuery).events.filter Event.isQuery = [] ∧
      (∀ query' : Client → GoString → QueryResponse Nat,
        GetPrometheusCondition ⟨(refusing (.errorString (bytes "no address"))).NewClient, query'⟩
            someURL someQuery =
          GetPrometheusCondition (refusing (.errorString (bytes "no address")))
            someURL someQuery) :=
  C5_client_failure (refusing (.errorString (bytes "no address"))) someURL someQuery
    (.errorString (bytes "no address")) rfl

/-- C6: when the client is constructed and the query returns the error `err`,
whatever result and warnings come with it, `GetPrometheusCondition` returns false
and an error that unwraps to `err`, its message being
`failed to query Prometheus: ` followed by that of `err`; the calls made are the
construction and one execution of the query. -/
theorem C6_query_failure {σ : Type} (lib : Library σ) (url cond : GoString) (client : Client)
    (err : GoError)
    (hc : lib.NewClient url = .ok client)
    (he : (lib.Query client cond).err = some err) :
    ∃ e : GoError, (GetPrometheusCondition lib url cond).returned = .ok (false, some e) ∧
      e.Unwrap = some err ∧
      e.Error = bytes "failed to query Prometheus: " ++ err.Error ∧
      (GetPrometheusCondition lib url cond).events = [.NewClient url, .Query client cond] ∧
      ((GetPrometheusCondition lib url cond).events.filter Event.isQuery).length = 1 := by
  refine ⟨Errorf_w (bytes "failed to query Prometheus: ") err, ?_, rfl, rfl, ?_, ?_⟩
  · simp only [GetPrometheusCondition, hc, he]
  · simp only [GetPrometheusCondition, hc, he]
  · simp only [GetPrometheusCondition, hc, he]
    rfl

/-- C6, witness: a query that fails with `connection refused` while also
carrying a vector and a warning. -/
theorem C6_witness :
    ∃ e : GoError,
      (GetPrometheusCondition
        (answering ⟨some (.vector [1]), [bytes "w"], some (.errorString (bytes "connection refused"))⟩)
        someURL someQuery).returned = .ok (false, some e) ∧
      e.Unwrap = some (.errorString (bytes "connection refused")) ∧
      e.Error = bytes "failed to query Prometheus: " ++
        (GoError.errorString (bytes "connection refused")).Error ∧
      (GetPrometheusCondition
        (answering ⟨some (.vector [1]), [bytes "w"], some (.errorString (bytes "connection refused"))⟩)
        someURL someQuery).events = [.NewClient someURL, .Query ⟨someURL⟩ someQuery] ∧
      ((GetPrometheusCondition
        (answering ⟨some (.vector [1]), [bytes "w"], some (.errorString (bytes "connection refused"))⟩)
        someURL someQuery).events.filter Event.isQuery).length = 1 :=
  C6_query_failure
    (answering ⟨some (.vector [1]), [bytes "w"], some (.errorString (bytes "connection refused"))⟩)
    someURL someQuery ⟨someURL⟩ (.errorString (bytes "connection refused")) rfl rfl

/-- C7: two libraries that construct clients alike and whose query responses
agree on the result and on the error, and so differ at most in their warnings,
make `GetPrometheusCondition` return the same boolean and the same error. -/
theorem C7_warnings_ignored {σ : Type} (lib₁ lib₂ : Library σ) (url cond : GoString)
    (hN : lib₁.NewClient = lib₂.NewClient)
    (hr : ∀ c q, (lib₁.Query c q).result = (lib₂.Query c q).result)
    (he : ∀ c q, (lib₁.Query c q).err = (lib₂.Query c q).err) :
    (GetPrometheusCondition lib₁ url cond).returned =
      (GetPrometheusCondition lib₂ url cond).returned := by
  simp only [GetPrometheusCondition, hN]
  cases lib₂.NewClient url with
  | error err => rfl
  | ok client =>
    simp only [hr, he]
    cases (lib₂.Query client cond).err with
    | some err => rfl
    | none =>
      simp only
      cases (lib₂.Query client cond).result with
      | none => rfl
      | some result =>
        cases result with
        | scalar x => simp [Value.Type]
        | matrix x => simp [Value.Type]
        | string x => simp [Value.Type]
        | untyped => simp [Value.Type]
        | vector v =>
          simp only [Value.Type, if_true]
          by_cases hv : v.length > 0
          · simp only [if_pos hv]
          · simp only [if_neg hv]

/-- C7, witness: the same vector once without and once with a warning; the
returned values agree although the second run logs the warning. -/
theorem C7_witness :
    (GetPrometheusCondition (answering ⟨some (.vector [1]), [], none⟩) someURL someQuery).events ≠
      (GetPrometheusCondition (answering ⟨some (.vector [1]), [bytes "w"], none⟩)
        someURL someQuery).events ∧
    (GetPrometheusCondition (answering ⟨some (.vector [1]), [], none⟩) someURL someQuery).returned =
      (GetPrometheusCondition (answering ⟨some (.vector [1]), [bytes "w"], none⟩)
        someURL someQuery).returned :=
  ⟨by decide,
    C7_warnings_ignored (answering ⟨some (.vector [1]), [], none⟩)
      (answering ⟨some (.vector [1]), [bytes "w"], none⟩) someURL someQuery rfl
      (fun _ _ => rfl) (fun _ _ => rfl)⟩

end Prometheus
